import Mathlib

/-!
Verification development for a crypto scalping signal bot
(`utils.py`, `strategy.py`, `main.py`, `config.py`).

Shallow embedding conventions:
* Python floats are modelled as rationals (`ℚ`); the float NaN sentinel and
  raised exceptions are modelled by `Option` (`none` = NaN / no value).
* Wall-clock time is modelled as `ℕ` seconds; `datetime.now()` /
  `pd.Timestamp.now()` readings are passed as explicit parameters.
* The process-wide mutable dicts of `CryptoScalpingBot` become explicit
  state (`BotState`); the Binance REST collaborator `get_open_interest`
  becomes an explicit `fetch_result : Option ℚ` oracle parameter, and the
  Telegram `send_message` effect becomes the `notified` flag of the step
  result.
-/

/- Batteries seals the rational arithmetic primitives; reopening them lets
concrete states of the embedded program be evaluated by `decide`. -/
attribute [local semireducible] Rat.add Rat.sub Rat.mul Rat.inv Rat.ofScientific

/-- One OHLCV candle, as parsed in `main.process_kline_data`
(`timestamp/open/high/low/close/volume`). -/
structure Candle where
  timestamp : ℚ
  «open» : ℚ
  high : ℚ
  low : ℚ
  close : ℚ
  volume : ℚ
deriving DecidableEq

/- Configuration constants from `config.py`. -/

/-- `config.RSI_PERIOD = 14`. -/
def RSI_PERIOD : ℕ := 14

/-- `config.ATR_PERIOD = 14`. -/
def ATR_PERIOD : ℕ := 14

/-- `config.RSI_OVERBOUGHT = 70`. -/
def RSI_OVERBOUGHT : ℚ := 70

/-- `config.RSI_OVERSOLD = 30`. -/
def RSI_OVERSOLD : ℚ := 30

/-- `config.MIN_OI_CHANGE_PERCENT = 2.0`. -/
def MIN_OI_CHANGE_PERCENT : ℚ := 2

/-- `config.MIN_VOLUME_MULTIPLIER = 1.2`. -/
def MIN_VOLUME_MULTIPLIER : ℚ := 6/5

/-- `config.STOP_LOSS_ATR_MULTIPLIER = 1.5`. -/
def STOP_LOSS_ATR_MULTIPLIER : ℚ := 3/2

/-- `config.TAKE_PROFIT_ATR_MULTIPLIER = 2.0`. -/
def TAKE_PROFIT_ATR_MULTIPLIER : ℚ := 2

/-- `config.COOLDOWN_BETWEEN_SIGNALS = 300` seconds. -/
def COOLDOWN_BETWEEN_SIGNALS : ℕ := 300

/-- `config.KLINE_LIMIT = 100`. -/
def KLINE_LIMIT : ℕ := 100

/- Indicator library: `utils.py`. -/

/-- One step of the pandas adjusted (`adjust=True`) exponentially weighted
mean, carried as a (weighted numerator, weight sum) pair. -/
def ewmAdjStep (β : ℚ) (acc : ℚ × ℚ) (t : ℚ) : ℚ × ℚ :=
  (acc.1 * β + t, acc.2 * β + 1)

/-- Last entry of `series.ewm(com=com, min_periods=minPeriods).mean()` for a
NaN-free series (pandas `adjust=True` default): the weighted average
`Σ (1-α)^(n-1-i) x_i / Σ (1-α)^(n-1-i)` with `α = 1/(1+com)`.  `none` models
the NaN produced when fewer than `minPeriods` observations exist, and the
`ValueError` pandas raises for `com < 0`. -/
def ewmMeanAdjLast (com : ℚ) (minPeriods : ℕ) (xs : List ℚ) : Option ℚ :=
  if com < 0 ∨ xs.length < minPeriods ∨ xs.length = 0 then none
  else
    let β := 1 - 1 / (1 + com)
    let p := xs.foldl (ewmAdjStep β) (0, 0)
    some (p.1 / p.2)

/-- Last entry of
`series.ewm(alpha=alpha, min_periods=minPeriods, adjust=False).mean()` for a
NaN-free series: the recursion `y_0 = x_0`, `y_i = (1-α)·y_{i-1} + α·x_i`.
`none` models the NaN for fewer than `minPeriods` observations and the
`ValueError` pandas raises unless `0 < α ≤ 1`. -/
def ewmMeanUnadjLast (alpha : ℚ) (minPeriods : ℕ) : List ℚ → Option ℚ
  | [] => none
  | x :: xs =>
    if alpha ≤ 0 ∨ 1 < alpha ∨ xs.length + 1 < minPeriods then none
    else some (xs.foldl (fun y t => (1 - alpha) * y + alpha * t) x)

/-- `utils.calculate_rsi(prices, period)`.
`delta = prices.diff()` has NaN at index 0; both
`delta.where(delta > 0, 0.0)` and `-delta.where(delta < 0, 0.0)` turn that
NaN into `0.0` (a NaN condition selects the `other` operand), hence the
leading `0 ::`.  `com = period - 1` so the smoothing factor is `1/period`. -/
def calculate_rsi (prices : List ℚ) (period : ℕ) : Option ℚ :=
  if prices.length < period + 1 then none
  else
    let delta := List.zipWith (fun a b => a - b) (prices.drop 1) prices
    let gain := 0 :: delta.map (fun d => if 0 < d then d else 0)
    let loss := 0 :: delta.map (fun d => if d < 0 then -d else 0)
    match ewmMeanAdjLast ((period : ℚ) - 1) period gain,
          ewmMeanAdjLast ((period : ℚ) - 1) period loss with
    | some avg_gain, some avg_loss =>
      if avg_loss = 0 then some (if 0 < avg_gain then 100 else 50)
      else some (100 - 100 / (1 + avg_gain / avg_loss))
    | _, _ => none

/-- Rows 1.. of the true-range series:
`max(high-low, |high-prevClose|, |low-prevClose|)` per row. -/
def trueRangeTail : List ℚ → List ℚ → List ℚ → List ℚ
  | h :: hs, l :: ls, pc :: pcs =>
    max (h - l) (max |h - pc| |l - pc|) :: trueRangeTail hs ls pcs
  | _, _, _ => []

/-- The true-range series of `utils.calculate_atr`: at row 0 the shifted
previous close is NaN, so `DataFrame.max(axis=1)` (skipna) reduces to
`high - low`; later rows take the three-way maximum. -/
def trueRangeList (highs lows closes : List ℚ) : List ℚ :=
  match highs, lows with
  | h0 :: _, l0 :: _ => (h0 - l0) :: trueRangeTail (highs.drop 1) (lows.drop 1) closes
  | _, _ => []

/-- `utils.calculate_atr(high, low, close, period)`: exponential moving
average (`alpha=1/period`, `adjust=False`, `min_periods=period`) of the
true-range series, last entry. -/
def calculate_atr (high_prices low_prices close_prices : List ℚ) (period : ℕ) : Option ℚ :=
  if high_prices.length < period ∨ low_prices.length < period ∨
      close_prices.length < period then none
  else ewmMeanUnadjLast (1 / (period : ℚ)) period
    (trueRangeList high_prices low_prices close_prices)

/- String formatting helpers used by the strategy's message builder. -/

/-- Round a rational to the nearest integer, ties to even (the rounding used
by CPython's fixed-point float formatting, modelled at rational level). -/
def roundHalfEven (q : ℚ) : ℤ :=
  let f : ℤ := ⌊q⌋
  let r : ℚ := q - f
  if r < 1/2 then f
  else if 1/2 < r then f + 1
  else if f % 2 = 0 then f else f + 1

/-- Left-pad a string with zeros up to width `n`. -/
def padLeftZeros (s : String) (n : ℕ) : String :=
  String.mk (List.replicate (n - s.length) '0') ++ s

/-- Python fixed-point formatting `f"{q:.prec f}"`, modelled on rationals. -/
def formatFixed (q : ℚ) (prec : ℕ) : String :=
  let scaled : ℤ := roundHalfEven (q * (10 : ℚ) ^ prec)
  let sign := if scaled < 0 then "-" else ""
  let a : ℕ := scaled.natAbs
  if prec = 0 then sign ++ toString a
  else sign ++ toString (a / 10 ^ prec) ++ "." ++ padLeftZeros (toString (a % 10 ^ prec)) prec

/-- Python `str()` of a boolean (`True` / `False`). -/
def pyBool (b : Bool) : String := if b then "True" else "False"

/-- Two-digit zero-padded decimal, as in `strftime`. -/
def pad2 (n : ℕ) : String := if n < 10 then "0" ++ toString n else toString n

/-- `pd.Timestamp.now().strftime('%H:%M:%S')`, with the clock modelled as
seconds since midnight epoch. -/
def formatTimeHMS (now : ℕ) : String :=
  pad2 (now / 3600 % 24) ++ ":" ++ pad2 (now / 60 % 60) ++ ":" ++ pad2 (now % 60)

/- Strategy: `strategy.py` (class `Strategy`; its two instance attributes are
the configuration constants, so the methods are modelled as plain
functions). -/

/-- `Strategy.calculate_oi_change_percent`: percent change of open interest,
`0.0` when either value is missing or the previous value is zero. -/
def Strategy.calculate_oi_change_percent (current_oi prev_oi : Option ℚ) : ℚ :=
  match prev_oi, current_oi with
  | none, _ => 0
  | _, none => 0
  | some p, some c => if p = 0 then 0 else (c - p) / p * 100

/-- `Strategy.is_strong_volume`: compare the last candle's volume to the mean
of the trailing 20 volumes; with fewer than 20 candles (or zero mean) the
filter passes with ratio 1. -/
def Strategy.is_strong_volume (klines : List Candle) : Bool × ℚ :=
  if klines.length < 20 then (true, 1)
  else
    let recent_volumes := (klines.map Candle.volume).drop (klines.length - 20)
    let avg_volume := recent_volumes.sum / (recent_volumes.length : ℚ)
    let last_volume := (klines.map Candle.volume).getLast?.getD 0
    if avg_volume = 0 then (true, 1)
    else
      let volume_ratio := last_volume / avg_volume
      (decide (MIN_VOLUME_MULTIPLIER ≤ volume_ratio), volume_ratio)

/-- `Strategy.is_trend_confirmation`: momentum/bounce (LONG) or
momentum/pullback (SHORT) confirmation over the last 5 candles; passes
trivially with fewer than 5 candles. -/
def Strategy.is_trend_confirmation (klines : List Candle) (signal_type : String) :
    Bool × String :=
  if klines.length < 5 then (true, "insufficient data")
  else
    let recent_closes := (klines.map Candle.close).drop (klines.length - 5)
    let recent_highs := (klines.map Candle.high).drop (klines.length - 5)
    let recent_lows := (klines.map Candle.low).drop (klines.length - 5)
    let c1 := recent_closes.getD 4 0
    let c3 := recent_closes.getD 2 0
    let price_momentum := (c1 - c3) / c3
    if signal_type = "LONG" then
      let trend_ok := decide (-(1/100) < price_momentum)
      let bounce_ok := decide (recent_lows.getD 3 0 ≤ c1)
      (trend_ok && bounce_ok,
        "momentum: " ++ formatFixed price_momentum 3 ++ ", bounce: " ++ pyBool bounce_ok)
    else
      let trend_ok := decide (price_momentum < 1/100)
      let pullback_ok := decide (c1 ≤ recent_highs.getD 3 0)
      (trend_ok && pullback_ok,
        "momentum: " ++ formatFixed price_momentum 3 ++ ", pullback: " ++ pyBool pullback_ok)

/-- Maximum of a list of rationals (first element as base; the strategy only
applies it to non-empty 20-candle windows). -/
def listMax : List ℚ → ℚ
  | [] => 0
  | x :: xs => xs.foldl max x

/-- Minimum of a list of rationals. -/
def listMin : List ℚ → ℚ
  | [] => 0
  | x :: xs => xs.foldl min x

/-- `(max(high) - min(low)) / mean(close)` over the trailing 20 candles, the
volatility measure of `Strategy.calculate_dynamic_levels`. -/
def volatility20 (klines : List Candle) : ℚ :=
  let recent_highs := (klines.map Candle.high).drop (klines.length - 20)
  let recent_lows := (klines.map Candle.low).drop (klines.length - 20)
  let recent_closes := (klines.map Candle.close).drop (klines.length - 20)
  let avg_close := recent_closes.sum / (recent_closes.length : ℚ)
  (listMax recent_highs - listMin recent_lows) / avg_close

/-- `Strategy.calculate_dynamic_levels`: tiered stop/take ATR multipliers
chosen by trailing-20-candle volatility (defaults when fewer than 20
candles).  The `atr` argument is unused by the source body but kept for the
signature. -/
def Strategy.calculate_dynamic_levels (klines : List Candle) (atr : ℚ) :
    ℚ × ℚ × String :=
  if klines.length < 20 then
    (STOP_LOSS_ATR_MULTIPLIER, TAKE_PROFIT_ATR_MULTIPLIER, "insufficient data")
  else
    let volatility := volatility20 klines
    if 1/20 < volatility then (2, 5/2, "high (" ++ formatFixed volatility 3 ++ ")")
    else if 1/50 < volatility then
      (STOP_LOSS_ATR_MULTIPLIER, TAKE_PROFIT_ATR_MULTIPLIER,
        "medium (" ++ formatFixed volatility 3 ++ ")")
    else (6/5, 9/5, "low (" ++ formatFixed volatility 3 ++ ")")

/-- `Strategy.calculate_signal_strength`: 1-5 star score from RSI extremity,
open-interest growth, volume ratio and trend confirmation, with the factor
description string. -/
def Strategy.calculate_signal_strength (rsi oi_change_percent volume_ratio : ℚ)
    (trend_confirmed : Bool) : ℕ × String :=
  let p1 : ℕ × List String :=
    if rsi ≤ 25 ∨ 75 ≤ rsi then (2, ["extreme RSI"])
    else if rsi ≤ RSI_OVERSOLD ∨ RSI_OVERBOUGHT ≤ rsi then (1, ["RSI signal"])
    else (0, [])
  let p2 : ℕ × List String :=
    if 5 ≤ oi_change_percent then (2, ["strong OI growth"])
    else if MIN_OI_CHANGE_PERCENT ≤ oi_change_percent then (1, ["OI growth"])
    else (0, [])
  let p3 : ℕ × List String :=
    if 2 ≤ volume_ratio then (1, ["high volume"]) else (0, [])
  let s0 := p1.1 + p2.1 + p3.1
  let sf : ℕ × List String :=
    if trend_confirmed then (s0, p1.2 ++ p2.2 ++ p3.2)
    else (s0 - 1, p1.2 ++ p2.2 ++ p3.2 ++ ["weak trend"])
  (min 5 (max 1 sf.1),
    if sf.2.isEmpty then "basic signal" else String.intercalate " + " sf.2)

/-- `Strategy.format_signal_message`: the Markdown alert text.  The source
reads the clock itself via `pd.Timestamp.now().strftime('%H:%M:%S')`; that
reading is passed here as `timeStr`. -/
def Strategy.format_signal_message (signal_type symbol : String)
    (klines : List Candle) (rsi atr oi_change_percent stop_loss take_profit
    volume_ratio : ℚ) (vol_info : String) (signal_strength : ℕ)
    (strength_desc : String) (timeStr : String) : String :=
  let last_close_price := (klines.map Candle.close).getLast?.getD 0
  let risk := |last_close_price - stop_loss|
  let reward := |take_profit - last_close_price|
  let risk_reward_ratio := if 0 < risk then reward / risk else 0
  let stars := String.join (List.replicate signal_strength "⭐")
  let signal_emoji := if signal_type = "LONG" then "🟢" else "🔴"
  signal_emoji ++ " *" ++ signal_type ++ " SIGNAL* " ++ stars ++ "\n" ++
  "📊 *" ++ symbol ++ "*\n\n" ++
  "💰 Entry: `" ++ formatFixed last_close_price 4 ++ "`\n" ++
  "🛑 Stop Loss: `" ++ formatFixed stop_loss 4 ++ "` (" ++
    formatFixed (risk / last_close_price * 100) 2 ++ "%)\n" ++
  "🎯 Take Profit: `" ++ formatFixed take_profit 4 ++ "` (" ++
    formatFixed (reward / last_close_price * 100) 2 ++ "%)\n" ++
  "⚖️ Risk/Reward: `1:" ++ formatFixed risk_reward_ratio 2 ++ "`\n\n" ++
  "📈 *Technical Analysis:*\n" ++
  "• RSI(" ++ toString RSI_PERIOD ++ "): `" ++ formatFixed rsi 1 ++ "`\n" ++
  "• ATR(" ++ toString ATR_PERIOD ++ "): `" ++ formatFixed atr 6 ++ "`\n" ++
  "• Open Interest: `+" ++ formatFixed oi_change_percent 2 ++ "%`\n" ++
  "• Volume: `" ++ formatFixed volume_ratio 1 ++ "x` above avg\n" ++
  "• Volatility: `" ++ vol_info ++ "`\n\n" ++
  "🎯 *Signal Strength:* " ++ strength_desc ++ "\n" ++
  "⏰ `" ++ timeStr ++ "`"

/-- Body of `Strategy.process_kline_data` with the single wall-clock reading
(used only inside `format_signal_message`) supplied as a string. -/
def Strategy.process_kline_core (symbol : String) (klines : List Candle)
    (current_oi prev_oi : Option ℚ) (timeStr : String) : Option String :=
  let required_data_length := max (RSI_PERIOD + 1) (ATR_PERIOD + 1)
  if klines.length < required_data_length then none
  else
    match calculate_rsi (klines.map Candle.close) RSI_PERIOD,
          calculate_atr (klines.map Candle.high) (klines.map Candle.low)
            (klines.map Candle.close) ATR_PERIOD with
    | some rsi, some atr =>
      if atr = 0 then none
      else
        let last_close_price := (klines.map Candle.close).getLast?.getD 0
        let oi_change_percent := Strategy.calculate_oi_change_percent current_oi prev_oi
        let oi_grew_significantly := decide (MIN_OI_CHANGE_PERCENT ≤ oi_change_percent)
        let sv := Strategy.is_strong_volume klines
        if decide (rsi < RSI_OVERSOLD) && oi_grew_significantly && sv.1 then
          let tc := Strategy.is_trend_confirmation klines "LONG"
          if tc.1 then
            let dl := Strategy.calculate_dynamic_levels klines atr
            let stop_loss := last_close_price - dl.1 * atr
            let take_profit := last_close_price + dl.2.1 * atr
            let ss := Strategy.calculate_signal_strength rsi oi_change_percent sv.2 tc.1
            some (Strategy.format_signal_message "LONG" symbol klines rsi atr
              oi_change_percent stop_loss take_profit sv.2 dl.2.2 ss.1 ss.2 timeStr)
          else none
        else if decide (RSI_OVERBOUGHT < rsi) && oi_grew_significantly && sv.1 then
          let tc := Strategy.is_trend_confirmation klines "SHORT"
          if tc.1 then
            let dl := Strategy.calculate_dynamic_levels klines atr
            let stop_loss := last_close_price + dl.1 * atr
            let take_profit := last_close_price - dl.2.1 * atr
            let ss := Strategy.calculate_signal_strength rsi oi_change_percent sv.2 tc.1
            some (Strategy.format_signal_message "SHORT" symbol klines rsi atr
              oi_change_percent stop_loss take_profit sv.2 dl.2.2 ss.1 ss.2 timeStr)
          else none
        else none
    | _, _ => none

/-- `Strategy.process_kline_data(symbol, klines_df, current_oi, prev_oi)`:
the signal engine.  An empty DataFrame is subsumed by the
`len < max(RSI_PERIOD, ATR_PERIOD) + 1` guard; index resetting is a no-op on
the list model.  `now` models the wall clock read during message
formatting. -/
def Strategy.process_kline_data (symbol : String) (klines : List Candle)
    (current_oi prev_oi : Option ℚ) (now : ℕ) : Option String :=
  Strategy.process_kline_core symbol klines current_oi prev_oi (formatTimeHMS now)

/- Stream dispatcher: `main.py` (class `CryptoScalpingBot`). -/

/-- One entry of `self.symbol_open_interest_data`
(`current_oi` / `prev_oi` / `timestamp`); the stored values may be `None`. -/
structure OpenInterestEntry where
  current_oi : Option ℚ
  prev_oi : Option ℚ
  timestamp : ℕ
deriving DecidableEq

/-- The dispatcher-owned mutable maps of `CryptoScalpingBot.__init__`. -/
structure BotState where
  symbol_kline_data : String → Option (List Candle)
  symbol_open_interest_data : String → Option OpenInterestEntry
  last_signal_time : String → Option ℕ

/-- Point update of a string-keyed map. -/
def updateMap {α : Type} (m : String → Option α) (k : String) (v : α) :
    String → Option α :=
  fun s => if s = k then some v else m s

/-- `collections.deque(maxlen)` append: push at the tail, evicting from the
head once the maximum length is exceeded. -/
def dequeAppend {α : Type} (maxlen : ℕ) (l : List α) (c : α) : List α :=
  if (l ++ [c]).length ≤ maxlen then l ++ [c]
  else (l ++ [c]).drop ((l ++ [c]).length - maxlen)

/-- The closed-candle payload `data['k']` of a kline event: the `'x'`
closed flag plus the already-parsed OHLCV fields (malformed payloads are
modelled as the `payload = none` case of the dispatcher). -/
structure Kline where
  x : Bool
  candle : Candle

/-- `cooldownActive last now`: the dispatcher's cooldown test
`(now - last_signal_time[symbol]).total_seconds() < COOLDOWN_BETWEEN_SIGNALS`
(vacuously inactive when no alert was ever recorded). -/
def cooldownActive (last : Option ℕ) (now : ℕ) : Bool :=
  match last with
  | none => false
  | some t => decide (now - t < COOLDOWN_BETWEEN_SIGNALS)

/-- Result of one dispatcher kline step: the successor state, whether a
Telegram notification was sent, whether a REST open-interest fetch was
issued, and the engine's output (if it ran). -/
structure KlineStepResult where
  state : BotState
  notified : Bool
  fetched : Bool
  signal : Option String

/-- `CryptoScalpingBot.process_kline_data(symbol, data)`: append the closed
candle, check the cooldown gate, lazily fetch open interest when absent, run
the signal engine, notify and record the alert time on a signal, then
overwrite `prev_oi` with the (current) `current_oi`.  `now` models the
`datetime.now()` readings, `fetch_result` the REST collaborator's answer. -/
def CryptoScalpingBot.process_kline_data (st : BotState) (symbol : String)
    (payload : Option Kline) (now : ℕ) (fetch_result : Option ℚ) :
    KlineStepResult :=
  match payload with
  | none => ⟨st, false, false, none⟩
  | some k =>
    if k.x = true then
      match st.symbol_kline_data symbol with
      | none => ⟨st, false, false, none⟩
      | some hist =>
        let hist2 := dequeAppend (KLINE_LIMIT + 20) hist k.candle
        let st1 : BotState :=
          { st with symbol_kline_data := updateMap st.symbol_kline_data symbol hist2 }
        let oi_info := st1.symbol_open_interest_data symbol
        let current_oi0 := oi_info.bind OpenInterestEntry.current_oi
        let prev_oi := oi_info.bind OpenInterestEntry.prev_oi
        if cooldownActive (st1.last_signal_time symbol) now then
          ⟨st1, false, false, none⟩
        else
          let fetched := current_oi0.isNone
          let st2 : BotState :=
            if current_oi0.isNone then
              match fetch_result with
              | some v =>
                { st1 with symbol_open_interest_data :=
                    updateMap st1.symbol_open_interest_data symbol ⟨some v, none, now⟩ }
              | none => st1
            else st1
          let current_oi := if current_oi0.isNone then fetch_result else current_oi0
          let signal := Strategy.process_kline_data symbol hist2 current_oi prev_oi now
          let st3 : BotState :=
            match signal with
            | some _ =>
              { st2 with last_signal_time := updateMap st2.last_signal_time symbol now }
            | none => st2
          let st4 : BotState :=
            match current_oi, st3.symbol_open_interest_data symbol with
            | some v, some entry =>
              { st3 with symbol_open_interest_data :=
                  (updateMap st3.symbol_open_interest_data symbol
                    { entry with prev_oi := some v }) }
            | _, _ => st3
          ⟨st4, signal.isSome, fetched, signal⟩
    else ⟨st, false, false, none⟩

/-- `CryptoScalpingBot.process_open_interest_data(symbol, data)`: a force
order event triggers a fresh REST open-interest pull (`fetch_result`); a
present value creates the entry or shifts `current_oi` into `prev_oi` before
storing the new current value. -/
def CryptoScalpingBot.process_open_interest_data (st : BotState)
    (symbol : String) (now : ℕ) (fetch_result : Option ℚ) : BotState :=
  match fetch_result with
  | none => st
  | some v =>
    match st.symbol_open_interest_data symbol with
    | none =>
      { st with symbol_open_interest_data :=
          updateMap st.symbol_open_interest_data symbol ⟨some v, none, now⟩ }
    | some entry =>
      { st with symbol_open_interest_data :=
          (updateMap st.symbol_open_interest_data symbol
            ⟨some v, entry.current_oi, now⟩) }

/- Concrete sample data used to exercise the definitions. -/

/-- Sample candle `i` of a gently declining market: close `1000 - i`, a
10-wide high/low band, unit volume. -/
def exCandle (i : ℕ) : Candle :=
  ⟨(i : ℚ), 1000 - (i : ℚ), 1005 - (i : ℚ), 995 - (i : ℚ), 1000 - (i : ℚ), 1⟩

/-- The first `n` sample candles, oldest first. -/
def exHist (n : ℕ) : List Candle := (List.range n).map exCandle

/-- A sample dispatcher state tracking `BTCUSDT` with 14 candles of history,
open interest current 103 / previous 100, and no alert recorded yet. -/
def exState : BotState where
  symbol_kline_data := fun s => if s = "BTCUSDT" then some (exHist 14) else none
  symbol_open_interest_data :=
    fun s => if s = "BTCUSDT" then some ⟨some 103, some 100, 0⟩ else none
  last_signal_time := fun _ => none

/-- A sample dispatcher state like `exState` but with 15 candles and an
alert already recorded at time 1000. -/
def exStateCooldown : BotState where
  symbol_kline_data := fun s => if s = "BTCUSDT" then some (exHist 15) else none
  symbol_open_interest_data :=
    fun s => if s = "BTCUSDT" then some ⟨some 103, some 103, 0⟩ else none
  last_signal_time := fun s => if s = "BTCUSDT" then some 1000 else none

/-- A flat candle whose 20-candle window has volatility exactly 2%. -/
def flatCandle : Candle := ⟨0, 100, 101, 99, 100, 1⟩

/-- A fully constant candle (zero true range). -/
def constCandle : Candle := ⟨0, 100, 100, 100, 100, 1⟩

/-- A candle whose 20-candle window has volatility 20% (high tier). -/
def highVolCandle : Candle := ⟨0, 100, 110, 90, 100, 1⟩

/-- A candle whose 20-candle window has volatility 3% (medium tier). -/
def medVolCandle : Candle := ⟨0, 100, 102, 99, 100, 1⟩

/-- Sample run, step 1: the 15th candle closes at time 1000 on `exState`. -/
def exRun1 : KlineStepResult :=
  CryptoScalpingBot.process_kline_data exState "BTCUSDT"
    (some ⟨true, exCandle 14⟩) 1000 none

/-- Sample run, step 2: the 16th candle closes at time 1100, inside the
cooldown window opened by step 1. -/
def exRun2 : KlineStepResult :=
  CryptoScalpingBot.process_kline_data exRun1.state "BTCUSDT"
    (some ⟨true, exCandle 15⟩) 1100 none

/-- Sample run, step 3: a force-order event at time 1200 refreshes the open
interest to 106. -/
def exRunOI : BotState :=
  CryptoScalpingBot.process_open_interest_data exRun2.state "BTCUSDT" 1200
    (some 106)

/-- Sample run, step 4: the 17th candle closes at time 1400, after the
cooldown window has elapsed. -/
def exRun3 : KlineStepResult :=
  CryptoScalpingBot.process_kline_data exRunOI "BTCUSDT"
    (some ⟨true, exCandle 16⟩) 1400 none

/-! ## Theorems -/

/- Rolling store lemmas (deque semantics). -/

lemma dequeAppend_eq_drop {α : Type} (m : ℕ) (l : List α) (c : α) :
    dequeAppend m l c = (l ++ [c]).drop ((l ++ [c]).length - m) := by
  unfold dequeAppend
  split
  · next h => rw [show (l ++ [c]).length - m = 0 by omega, List.drop_zero]
  · rfl

lemma dequeAppend_length_le {α : Type} (m : ℕ) (l : List α) (c : α) :
    (dequeAppend m l c).length ≤ m := by
  unfold dequeAppend
  split
  · next h => exact h
  · next h => rw [List.length_drop]; omega

lemma drop_sub_append {α : Type} (m : ℕ) (u v : List α) :
    (u.drop (u.length - m) ++ v).drop ((u.drop (u.length - m) ++ v).length - m)
      = (u ++ v).drop ((u ++ v).length - m) := by
  rcases le_total u.length m with h | h
  · rw [show u.length - m = 0 by omega, List.drop_zero]
  · have h1 : (u.drop (u.length - m)).length = m := by
      rw [List.length_drop]; omega
    rw [List.drop_append_eq_append_drop, List.drop_append_eq_append_drop,
      List.drop_drop, h1, List.length_append, List.length_append, h1]
    congr 2
    · omega
    · omega

lemma foldl_dequeAppend {α : Type} (m : ℕ) (cs : List α) :
    ∀ (l : List α), l.length ≤ m →
      List.foldl (dequeAppend m) l cs = (l ++ cs).drop ((l ++ cs).length - m) := by
  induction cs with
  | nil =>
    intro l hl
    simp only [List.foldl_nil, List.append_nil]
    rw [show l.length - m = 0 by omega, List.drop_zero]
  | cons c cs ih =>
    intro l hl
    rw [List.foldl_cons, ih (dequeAppend m l c) (dequeAppend_length_le m l c),
      dequeAppend_eq_drop, drop_sub_append,
      show (l ++ [c]) ++ cs = l ++ c :: cs by simp]

/-- C5: the per-symbol rolling candle store (a `deque(maxlen=capacity)`) never
holds more than its capacity, and after appending more candles than the
capacity exactly the most recent `capacity` candles remain, in insertion
order (the suffix of the appended sequence), the oldest being evicted on
each overflow. -/
theorem rolling_store_capacity {α : Type} (capacity : ℕ) (cs : List α) :
    (List.foldl (dequeAppend capacity) [] cs).length ≤ capacity ∧
      (capacity < cs.length →
        List.foldl (dequeAppend capacity) [] cs = cs.drop (cs.length - capacity)) := by
  have hfold := foldl_dequeAppend capacity cs [] (by simp)
  simp only [List.nil_append] at hfold
  constructor
  · rw [hfold, List.length_drop]; omega
  · intro _; exact hfold

/-- Witness for C5 at a concrete run: capacity 3, five candles appended;
only the last three remain, oldest first. -/
theorem rolling_store_capacity_witness :
    (List.foldl (dequeAppend 3) [] (exHist 5)).length ≤ 3 ∧
      List.foldl (dequeAppend 3) [] (exHist 5) = [exCandle 2, exCandle 3, exCandle 4] := by
  refine ⟨(rolling_store_capacity 3 (exHist 5)).1, ?_⟩
  rw [(rolling_store_capacity 3 (exHist 5)).2 (by decide)]
  decide

/- Exponentially weighted mean lemmas shared by the RSI claims. -/

lemma ewmAdj_fst_nonneg (β : ℚ) (hβ : 0 ≤ β) :
    ∀ (xs : List ℚ) (acc : ℚ × ℚ), 0 ≤ acc.1 → (∀ x ∈ xs, 0 ≤ x) →
      0 ≤ (List.foldl (ewmAdjStep β) acc xs).1 := by
  intro xs
  induction xs with
  | nil => intro acc h _; simpa using h
  | cons x xs ih =>
    intro acc hacc hmem
    rw [List.foldl_cons]
    refine ih _ ?_ (fun y hy => hmem y (List.mem_cons_of_mem _ hy))
    have hx : 0 ≤ x := hmem x (List.mem_cons_self x xs)
    simpa [ewmAdjStep] using add_nonneg (mul_nonneg hacc hβ) hx

lemma ewmAdj_snd_nonneg (β : ℚ) (hβ : 0 ≤ β) :
    ∀ (xs : List ℚ) (acc : ℚ × ℚ), 0 ≤ acc.2 →
      0 ≤ (List.foldl (ewmAdjStep β) acc xs).2 := by
  intro xs
  induction xs with
  | nil => intro acc h; simpa using h
  | cons x xs ih =>
    intro acc hacc
    rw [List.foldl_cons]
    refine ih _ ?_
    have : (0:ℚ) ≤ acc.2 * β := mul_nonneg hacc hβ
    simp only [ewmAdjStep]
    linarith

lemma ewmAdj_snd_ge_one (β : ℚ) (hβ : 0 ≤ β) :
    ∀ (xs : List ℚ) (acc : ℚ × ℚ), 0 ≤ acc.2 → xs ≠ [] →
      1 ≤ (List.foldl (ewmAdjStep β) acc xs).2 := by
  intro xs
  induction xs with
  | nil => intro _ _ h; exact absurd rfl h
  | cons x xs ih =>
    intro acc hacc _
    rw [List.foldl_cons]
    rcases List.eq_nil_or_concat xs with hnil | _
    · subst hnil
      have : (0:ℚ) ≤ acc.2 * β := mul_nonneg hacc hβ
      simp only [List.foldl_nil, ewmAdjStep]
      linarith
    · rcases List.eq_nil_or_concat xs with hnil | ⟨ys, y, hys⟩
      · subst hnil
        have : (0:ℚ) ≤ acc.2 * β := mul_nonneg hacc hβ
        simp only [List.foldl_nil, ewmAdjStep]
        linarith
      · refine ih _ ?_ (by simp [hys])
        have : (0:ℚ) ≤ acc.2 * β := mul_nonneg hacc hβ
        simp only [ewmAdjStep]
        linarith

lemma ewmAdj_fst_zero (β : ℚ) :
    ∀ (xs : List ℚ) (acc : ℚ × ℚ), acc.1 = 0 → (∀ x ∈ xs, x = 0) →
      (List.foldl (ewmAdjStep β) acc xs).1 = 0 := by
  intro xs
  induction xs with
  | nil => intro acc h _; simpa using h
  | cons x xs ih =>
    intro acc hacc hmem
    rw [List.foldl_cons]
    refine ih _ ?_ (fun y hy => hmem y (List.mem_cons_of_mem _ hy))
    have hx : x = 0 := hmem x (List.mem_cons_self x xs)
    simp [ewmAdjStep, hacc, hx]

lemma ewmAdj_fst_pos_concat (β : ℚ) (hβ : 0 ≤ β) (ys : List ℚ) (t : ℚ)
    (hys : ∀ x ∈ ys, 0 ≤ x) (ht : 0 < t) :
    0 < (List.foldl (ewmAdjStep β) (0, 0) (ys ++ [t])).1 := by
  rw [List.foldl_append]
  have hnum : 0 ≤ (List.foldl (ewmAdjStep β) ((0:ℚ), (0:ℚ)) ys).1 :=
    ewmAdj_fst_nonneg β hβ ys (0, 0) le_rfl hys
  simp only [List.foldl_cons, List.foldl_nil, ewmAdjStep]
  have : (0:ℚ) ≤ (List.foldl (ewmAdjStep β) ((0:ℚ), (0:ℚ)) ys).1 * β :=
    mul_nonneg hnum hβ
  linarith

lemma beta_nonneg_of_com (com : ℚ) (hcom : 0 ≤ com) : 0 ≤ 1 - 1 / (1 + com) := by
  have h1 : (0:ℚ) < 1 + com := by linarith
  have : 1 / (1 + com) ≤ 1 := by
    rw [div_le_one h1]; linarith
  linarith

lemma ewmMeanAdjLast_of_all_zero (com : ℚ) (minp : ℕ) (xs : List ℚ)
    (hcom : 0 ≤ com) (hlen : minp ≤ xs.length) (hne : xs ≠ [])
    (hz : ∀ x ∈ xs, x = 0) : ewmMeanAdjLast com minp xs = some 0 := by
  unfold ewmMeanAdjLast
  rw [if_neg (by push_neg; exact ⟨hcom, hlen, by simpa using hne⟩)]
  simp only []
  rw [ewmAdj_fst_zero _ _ _ rfl hz, zero_div]

lemma ewmMeanAdjLast_pos_of_concat (com : ℚ) (minp : ℕ) (ys : List ℚ) (t : ℚ)
    (hcom : 0 ≤ com) (hys : ∀ x ∈ ys, 0 ≤ x) (ht : 0 < t)
    (hlen : minp ≤ ys.length + 1) :
    ∃ v, ewmMeanAdjLast com minp (ys ++ [t]) = some v ∧ 0 < v := by
  have hβ := beta_nonneg_of_com com hcom
  unfold ewmMeanAdjLast
  rw [if_neg (by
    push_neg
    refine ⟨hcom, ?_, ?_⟩ <;> simp only [List.length_append, List.length_cons,
      List.length_nil] <;> omega)]
  simp only []
  refine ⟨_, rfl, div_pos (ewmAdj_fst_pos_concat _ hβ ys t hys ht) ?_⟩
  have := ewmAdj_snd_ge_one _ hβ (ys ++ [t]) (0, 0) le_rfl (by simp)
  linarith

lemma delta_zero_of_const : ∀ (l : List ℚ) (c : ℚ), (∀ x ∈ l, x = c) →
    ∀ d ∈ List.zipWith (fun a b => a - b) (l.drop 1) l, d = 0
  | [], _, _, d, hd => by simp at hd
  | [_], _, _, d, hd => by simp at hd
  | a :: b :: t, c, hc, d, hd => by
    simp only [List.drop_one, List.tail_cons, List.zipWith_cons_cons,
      List.mem_cons] at hd
    rcases hd with hd | hd
    · have ha : a = c := hc a (by simp)
      have hb : b = c := hc b (by simp)
      rw [hd, ha, hb, sub_self]
    · refine delta_zero_of_const (b :: t) c (fun x hx => hc x (List.mem_cons_of_mem _ hx)) d ?_
      simpa using hd

lemma delta_pos_of_chain : ∀ (l : List ℚ), List.Chain' (· < ·) l →
    ∀ d ∈ List.zipWith (fun a b => a - b) (l.drop 1) l, 0 < d
  | [], _, d, hd => by simp at hd
  | [_], _, d, hd => by simp at hd
  | a :: b :: t, hchain, d, hd => by
    simp only [List.drop_one, List.tail_cons, List.zipWith_cons_cons,
      List.mem_cons] at hd
    rw [List.chain'_cons] at hchain
    rcases hd with hd | hd
    · rw [hd]; exact sub_pos.mpr hchain.1
    · refine delta_pos_of_chain (b :: t) hchain.2 d ?_
      simpa using hd

/-- C3: `calculate_rsi` returns exactly 50 on every constant price sequence
of length at least `period + 1`, and exactly 100 on every strictly
increasing close sequence of length greater than `period` (both through the
zero-average-loss branch: 100 if the average gain is positive, else 50). -/
theorem rsi_flat_and_increasing (prices : List ℚ) (period n : ℕ) (c : ℚ)
    (hper : 1 ≤ period) :
    (period + 1 ≤ n → calculate_rsi (List.replicate n c) period = some 50) ∧
    (period + 1 ≤ prices.length → List.Chain' (· < ·) prices →
      calculate_rsi prices period = some 100) := by
  have hcom : (0:ℚ) ≤ (period : ℚ) - 1 := by
    have : (1:ℚ) ≤ (period : ℚ) := by exact_mod_cast hper
    linarith
  constructor
  · intro hn
    unfold calculate_rsi
    rw [if_neg (by simp only [List.length_replicate]; omega)]
    simp only []
    have hconst : ∀ x ∈ List.replicate n c, x = c := fun x hx => List.eq_of_mem_replicate hx
    have hdelta := delta_zero_of_const (List.replicate n c) c hconst
    have hg : ewmMeanAdjLast ((period : ℚ) - 1) period
        (0 :: (List.zipWith (fun a b => a - b) ((List.replicate n c).drop 1)
          (List.replicate n c)).map (fun d => if 0 < d then d else 0)) = some 0 := by
      refine ewmMeanAdjLast_of_all_zero _ _ _ hcom ?_ (by simp) ?_
      · simp only [List.length_cons, List.length_map, List.length_zipWith,
          List.length_drop, List.length_replicate]
        omega
      · intro x hx
        rcases List.mem_cons.mp hx with h | h
        · exact h
        · obtain ⟨d, hd, hfd⟩ := List.mem_map.mp h
          rw [← hfd, hdelta d hd]
          norm_num
    have hl : ewmMeanAdjLast ((period : ℚ) - 1) period
        (0 :: (List.zipWith (fun a b => a - b) ((List.replicate n c).drop 1)
          (List.replicate n c)).map (fun d => if d < 0 then -d else 0)) = some 0 := by
      refine ewmMeanAdjLast_of_all_zero _ _ _ hcom ?_ (by simp) ?_
      · simp only [List.length_cons, List.length_map, List.length_zipWith,
          List.length_drop, List.length_replicate]
        omega
      · intro x hx
        rcases List.mem_cons.mp hx with h | h
        · exact h
        · obtain ⟨d, hd, hfd⟩ := List.mem_map.mp h
          rw [← hfd, hdelta d hd]
          norm_num
    rw [hg, hl]
    norm_num
  · intro hlen hchain
    unfold calculate_rsi
    rw [if_neg (by omega)]
    simp only []
    have hpos := delta_pos_of_chain prices hchain
    have hdlen : (List.zipWith (fun a b => a - b) (prices.drop 1) prices).length
        = prices.length - 1 := by
      simp only [List.length_zipWith, List.length_drop]
      omega
    have hdne : List.zipWith (fun a b => a - b) (prices.drop 1) prices ≠ [] := by
      intro h
      rw [h] at hdlen
      simp at hdlen
      omega
    have hl : ewmMeanAdjLast ((period : ℚ) - 1) period
        (0 :: (List.zipWith (fun a b => a - b) (prices.drop 1) prices).map
          (fun d => if d < 0 then -d else 0)) = some 0 := by
      refine ewmMeanAdjLast_of_all_zero _ _ _ hcom ?_ (by simp) ?_
      · simp only [List.length_cons, List.length_map, hdlen]
        omega
      · intro x hx
        rcases List.mem_cons.mp hx with h | h
        · exact h
        · obtain ⟨d, hd, hfd⟩ := List.mem_map.mp h
          have := hpos d hd
          rw [← hfd, if_neg (by linarith)]
    obtain ⟨vg, hg, hvg⟩ : ∃ v, ewmMeanAdjLast ((period : ℚ) - 1) period
        (0 :: (List.zipWith (fun a b => a - b) (prices.drop 1) prices).map
          (fun d => if 0 < d then d else 0)) = some v ∧ 0 < v := by
      set delta := List.zipWith (fun a b => a - b) (prices.drop 1) prices with hdel
      have hsplit : delta = delta.dropLast ++ [delta.getLast hdne] :=
        (List.dropLast_append_getLast hdne).symm
      have hdl : 0 < delta.getLast hdne := hpos _ (List.getLast_mem hdne)
      have hmap : delta.map (fun d => if 0 < d then d else 0)
          = delta.dropLast.map (fun d => if 0 < d then d else 0) ++ [delta.getLast hdne] := by
        conv_lhs => rw [hsplit]
        rw [List.map_append]
        simp only [List.map_cons, List.map_nil, if_pos hdl]
      rw [hmap, show (0:ℚ) :: (delta.dropLast.map (fun d => if 0 < d then d else 0)
        ++ [delta.getLast hdne]) = ((0:ℚ) :: delta.dropLast.map
          (fun d => if 0 < d then d else 0)) ++ [delta.getLast hdne] from rfl]
      refine ewmMeanAdjLast_pos_of_concat _ _ _ _ hcom ?_ hdl ?_
      · intro x hx
        rcases List.mem_cons.mp hx with h | h
        · exact le_of_eq h.symm
        · obtain ⟨d, _, hfd⟩ := List.mem_map.mp h
          rw [← hfd]
          split
          · linarith [show (0:ℚ) < d from by assumption]
          · exact le_rfl
      · simp only [List.length_cons, List.length_map, List.length_dropLast, hdlen]
        omega
    rw [hg, hl]
    simp [hvg]

/-- Witness for C3: a constant series of 15 prices gives RSI exactly 50; a
strictly increasing series of 15 prices gives RSI exactly 100 (period 14). -/
theorem rsi_flat_and_increasing_witness :
    calculate_rsi (List.replicate 15 (100:ℚ)) 14 = some 50 ∧
      calculate_rsi [(0:ℚ), 1, 2, 3, 4, 5, 6, 7, 8, 9, 10, 11, 12, 13, 14] 14
        = some 100 := by
  constructor
  · exact (rsi_flat_and_increasing [] 14 15 100 (by norm_num)).1 (by norm_num)
  · exact (rsi_flat_and_increasing [(0:ℚ), 1, 2, 3, 4, 5, 6, 7, 8, 9, 10, 11, 12, 13, 14]
      14 0 0 (by norm_num)).2 (by norm_num)
      (by norm_num [List.chain'_cons, List.chain'_singleton])

/-- C9: whenever `calculate_rsi` returns a value (rather than the NaN
sentinel), that value lies in the closed interval `[0, 100]`. -/
theorem rsi_bounded (prices : List ℚ) (period : ℕ) (v : ℚ)
    (hv : calculate_rsi prices period = some v) : 0 ≤ v ∧ v ≤ 100 := by
  unfold calculate_rsi at hv
  by_cases hlen : prices.length < period + 1
  · rw [if_pos hlen] at hv
    exact absurd hv (by simp)
  rw [if_neg hlen] at hv
  simp only [] at hv
  rcases hg : ewmMeanAdjLast ((period : ℚ) - 1) period
      (0 :: (List.zipWith (fun a b => a - b) (prices.drop 1) prices).map
        (fun d => if 0 < d then d else 0)) with _ | vg
  · rw [hg] at hv
    rcases hl : ewmMeanAdjLast ((period : ℚ) - 1) period
        (0 :: (List.zipWith (fun a b => a - b) (prices.drop 1) prices).map
          (fun d => if d < 0 then -d else 0)) with _ | vl <;>
      rw [hl] at hv <;> exact absurd hv (by simp)
  rcases hl : ewmMeanAdjLast ((period : ℚ) - 1) period
      (0 :: (List.zipWith (fun a b => a - b) (prices.drop 1) prices).map
        (fun d => if d < 0 then -d else 0)) with _ | vl
  · rw [hg, hl] at hv
    exact absurd hv (by simp)
  rw [hg, hl] at hv
  simp only [] at hv
  -- the guard of `ewmMeanAdjLast` passing forces `com ≥ 0`
  have hcom : (0:ℚ) ≤ (period : ℚ) - 1 := by
    by_contra hneg
    push_neg at hneg
    rw [ewmMeanAdjLast, if_pos (Or.inl hneg)] at hg
    exact absurd hg (by simp)
  have hβ := beta_nonneg_of_com _ hcom
  -- the two averages are nonnegative
  have havg : ∀ (f : ℚ → ℚ), (∀ d, 0 ≤ f d) → ∀ w,
      ewmMeanAdjLast ((period : ℚ) - 1) period
        (0 :: (List.zipWith (fun a b => a - b) (prices.drop 1) prices).map f) = some w →
      0 ≤ w := by
    intro f hf w hw
    rw [ewmMeanAdjLast] at hw
    by_cases hguard : ((period : ℚ) - 1) < 0 ∨
        ((0:ℚ) :: (List.zipWith (fun a b => a - b) (prices.drop 1) prices).map f).length
          < period ∨
        ((0:ℚ) :: (List.zipWith (fun a b => a - b) (prices.drop 1) prices).map f).length = 0
    · rw [if_pos hguard] at hw
      exact absurd hw (by simp)
    rw [if_neg hguard] at hw
    simp only [] at hw
    have hnum : 0 ≤ (List.foldl (ewmAdjStep (1 - 1 / (1 + ((period : ℚ) - 1)))) (0, 0)
        ((0:ℚ) :: (List.zipWith (fun a b => a - b) (prices.drop 1) prices).map f)).1 := by
      refine ewmAdj_fst_nonneg _ hβ _ _ le_rfl ?_
      intro x hx
      rcases List.mem_cons.mp hx with h | h
      · exact le_of_eq h.symm
      · obtain ⟨d, _, hfd⟩ := List.mem_map.mp h
        rw [← hfd]; exact hf d
    have hden : (1:ℚ) ≤ (List.foldl (ewmAdjStep (1 - 1 / (1 + ((period : ℚ) - 1)))) (0, 0)
        ((0:ℚ) :: (List.zipWith (fun a b => a - b) (prices.drop 1) prices).map f)).2 :=
      ewmAdj_snd_ge_one _ hβ _ _ le_rfl (by simp)
    rw [← Option.some_inj.mp hw]
    exact div_nonneg hnum (by linarith)
  have hvg : 0 ≤ vg := havg _ (fun d => by
    by_cases h : 0 < d
    · rw [if_pos h]; exact le_of_lt h
    · rw [if_neg h]) vg hg
  have hvl : 0 ≤ vl := havg _ (fun d => by
    by_cases h : d < 0
    · rw [if_pos h]; linarith
    · rw [if_neg h]) vl hl
  by_cases hz : vl = 0
  · rw [if_pos hz] at hv
    split at hv <;> simp only [Option.some_inj] at hv <;> rw [← hv] <;> norm_num
  · rw [if_neg hz] at hv
    simp only [Option.some_inj] at hv
    have hvl' : 0 < vl := lt_of_le_of_ne hvl (Ne.symm hz)
    have hrs : 0 ≤ vg / vl := div_nonneg hvg (le_of_lt hvl')
    have h1 : (0:ℚ) < 1 + vg / vl := by linarith
    constructor
    · rw [← hv]
      have : 100 / (1 + vg / vl) ≤ 100 := by
        rw [div_le_iff₀ h1]
        nlinarith
      linarith
    · rw [← hv]
      have : 0 < 100 / (1 + vg / vl) := by positivity
      linarith

set_option maxRecDepth 10000 in
/-- Witness for C9 at a concrete input: RSI of a constant 15-price series is
defined and within `[0, 100]`. -/
theorem rsi_bounded_witness :
    0 ≤ (50:ℚ) ∧ (50:ℚ) ≤ 100 :=
  rsi_bounded (List.replicate 15 (5:ℚ)) 14 50 (by decide)

/- True-range and unadjusted EWM lemmas for the ATR claim. -/

lemma trueRangeTail_nonneg : ∀ (hs ls cs : List ℚ), ∀ x ∈ trueRangeTail hs ls cs, 0 ≤ x
  | h :: hs, l :: ls, pc :: pcs, x, hx => by
    rw [trueRangeTail, List.mem_cons] at hx
    rcases hx with hx | hx
    · rw [hx]
      exact le_trans (abs_nonneg (h - pc)) (le_trans (le_max_left _ _) (le_max_right _ _))
    · exact trueRangeTail_nonneg hs ls pcs x hx
  | [], _, _, x, hx => by simp [trueRangeTail] at hx
  | _ :: _, [], _, x, hx => by simp [trueRangeTail] at hx
  | _ :: _, _ :: _, [], x, hx => by simp [trueRangeTail] at hx

lemma trueRangeTail_const : ∀ (k m : ℕ) (c : ℚ),
    trueRangeTail (List.replicate k c) (List.replicate k c) (List.replicate m c)
      = List.replicate (min k m) 0
  | 0, _, _ => by simp [trueRangeTail]
  | _ + 1, 0, _ => by simp [trueRangeTail]
  | k + 1, m + 1, c => by
    simp only [List.replicate_succ, trueRangeTail]
    rw [trueRangeTail_const k m c, sub_self, abs_zero, max_self, max_self,
      show min (k + 1) (m + 1) = min k m + 1 by omega, List.replicate_succ]

lemma ewmUnadj_fold_nonneg (alpha : ℚ) (h0 : 0 ≤ alpha) (h1 : alpha ≤ 1) :
    ∀ (xs : List ℚ) (y : ℚ), 0 ≤ y → (∀ x ∈ xs, 0 ≤ x) →
      0 ≤ List.foldl (fun y t => (1 - alpha) * y + alpha * t) y xs := by
  intro xs
  induction xs with
  | nil => intro y hy _; simpa using hy
  | cons x xs ih =>
    intro y hy hmem
    rw [List.foldl_cons]
    refine ih _ ?_ (fun z hz => hmem z (List.mem_cons_of_mem _ hz))
    have hx : 0 ≤ x := hmem x (List.mem_cons_self x xs)
    have := mul_nonneg (show (0:ℚ) ≤ 1 - alpha by linarith) hy
    have := mul_nonneg h0 hx
    linarith

lemma ewmUnadj_fold_zero (alpha : ℚ) :
    ∀ (xs : List ℚ), (∀ x ∈ xs, x = 0) →
      List.foldl (fun y t => (1 - alpha) * y + alpha * t) 0 xs = 0 := by
  intro xs
  induction xs with
  | nil => intro _; simp
  | cons x xs ih =>
    intro hmem
    rw [List.foldl_cons, hmem x (List.mem_cons_self x xs)]
    simpa using ih (fun z hz => hmem z (List.mem_cons_of_mem _ hz))

/-- C4 (amended): `calculate_atr` is nonnegative whenever each candle
satisfies `low ≤ high` (pairwise along the two sequences), and is exactly 0
on a flat constant-price series of length at least `period`.  Without the
`low ≤ high` hypothesis the first true-range row `high - low` can be
negative (see the counterexample). -/
theorem atr_nonneg_flat_zero (highs lows closes : List ℚ) (period n : ℕ) (c v : ℚ) :
    ((∀ p ∈ highs.zip lows, p.2 ≤ p.1) →
      calculate_atr highs lows closes period = some v → 0 ≤ v) ∧
    (1 ≤ period → period ≤ n →
      calculate_atr (List.replicate n c) (List.replicate n c) (List.replicate n c)
        period = some 0) := by
  constructor
  · intro hpair hv
    unfold calculate_atr at hv
    by_cases hguard : highs.length < period ∨ lows.length < period ∨
        closes.length < period
    · rw [if_pos hguard] at hv
      exact absurd hv (by simp)
    rw [if_neg hguard] at hv
    rcases highs with _ | ⟨h0, hs⟩
    · rw [show trueRangeList [] lows closes = [] from rfl] at hv
      exact absurd hv (by simp [ewmMeanUnadjLast])
    rcases lows with _ | ⟨l0, ls⟩
    · rw [show trueRangeList (h0 :: hs) [] closes = [] from rfl] at hv
      exact absurd hv (by simp [ewmMeanUnadjLast])
    rw [show trueRangeList (h0 :: hs) (l0 :: ls) closes
      = (h0 - l0) :: trueRangeTail hs ls closes from rfl, ewmMeanUnadjLast] at hv
    by_cases hg2 : 1 / (period : ℚ) ≤ 0 ∨ 1 < 1 / (period : ℚ) ∨
        (trueRangeTail hs ls closes).length + 1 < period
    · rw [if_pos hg2] at hv
      exact absurd hv (by simp)
    rw [if_neg hg2] at hv
    push_neg at hg2
    simp only [Option.some_inj] at hv
    rw [← hv]
    have hl0 : l0 ≤ h0 := by
      have := hpair (h0, l0) (by rw [List.zip_cons_cons]; exact List.mem_cons_self _ _)
      exact this
    exact ewmUnadj_fold_nonneg _ (le_of_lt hg2.1) hg2.2.1 _ _ (by linarith)
      (trueRangeTail_nonneg hs ls closes)
  · intro hper hn
    have hn1 : 1 ≤ n := le_trans hper hn
    obtain ⟨k, rfl⟩ : ∃ k, n = k + 1 := ⟨n - 1, by omega⟩
    unfold calculate_atr
    rw [if_neg (by push_neg; simp only [List.length_replicate]; omega)]
    rw [show List.replicate (k + 1) c = c :: List.replicate k c from List.replicate_succ c k]
    rw [show trueRangeList (c :: List.replicate k c) (c :: List.replicate k c)
        (c :: List.replicate k c)
      = (c - c) :: trueRangeTail (List.replicate k c) (List.replicate k c)
          (c :: List.replicate k c) from rfl]
    rw [show (c : ℚ) :: List.replicate k c = List.replicate (k + 1) c from
      (List.replicate_succ c k).symm]
    rw [trueRangeTail_const k (k + 1) c, show min k (k + 1) = k by omega]
    rw [ewmMeanUnadjLast]
    have hperq : (1:ℚ) ≤ (period : ℚ) := by exact_mod_cast hper
    rw [if_neg (by
      push_neg
      refine ⟨by positivity, ?_, ?_⟩
      · rw [div_le_one (by linarith)]; exact hperq
      · simp only [List.length_replicate]; omega)]
    rw [sub_self, ewmUnadj_fold_zero _ _ (fun x hx => List.eq_of_mem_replicate hx)]

set_option maxRecDepth 10000 in
/-- Counterexample for C4 as stated: with a first candle whose low exceeds
its high (`high = 0`, `low = 1`), `calculate_atr` over 14 candles returns a
strictly negative value, so "ATR ≥ 0 for every input" fails. -/
theorem atr_negative_cex :
    (calculate_atr (List.replicate 14 (0:ℚ)) ((1:ℚ) :: List.replicate 13 0)
      (List.replicate 14 0) 14).getD 0 < 0 := by decide

set_option maxRecDepth 10000 in
/-- Witness for C4: the nonnegativity part applied to a well-formed concrete
series (ATR value 10), and the flat part applied to a constant series. -/
theorem atr_nonneg_flat_zero_witness :
    (0:ℚ) ≤ 10 ∧
      calculate_atr (List.replicate 14 (100:ℚ)) (List.replicate 14 (100:ℚ))
        (List.replicate 14 (100:ℚ)) 14 = some 0 := by
  constructor
  · exact (atr_nonneg_flat_zero ((exHist 15).map Candle.high)
      ((exHist 15).map Candle.low) ((exHist 15).map Candle.close) 14 0 0 10).1
      (by decide) (by decide)
  · exact (atr_nonneg_flat_zero [] [] [] 14 14 100 0).2 (by norm_num) le_rfl

/-- C7 (amended): with at least 20 candles the stop/take ATR multipliers are
chosen by the trailing-20-candle volatility with strict lower bounds on each
tier: `volatility > 5%` gives `(2.0, 2.5)`; `2% < volatility ≤ 5%` gives the
configured defaults `(1.5, 2.0)`; `volatility ≤ 2%` (including exactly 2%)
gives `(1.2, 1.8)`; with fewer than 20 candles the configured defaults are
used. -/
theorem dynamic_levels_tiers (klines : List Candle) (atr : ℚ) :
    (klines.length < 20 →
      Strategy.calculate_dynamic_levels klines atr
        = (STOP_LOSS_ATR_MULTIPLIER, TAKE_PROFIT_ATR_MULTIPLIER, "insufficient data")) ∧
    (20 ≤ klines.length →
      (1/20 < volatility20 klines →
        ((Strategy.calculate_dynamic_levels klines atr).1,
          (Strategy.calculate_dynamic_levels klines atr).2.1) = (2, 5/2)) ∧
      (1/50 < volatility20 klines → volatility20 klines ≤ 1/20 →
        ((Strategy.calculate_dynamic_levels klines atr).1,
          (Strategy.calculate_dynamic_levels klines atr).2.1)
          = (STOP_LOSS_ATR_MULTIPLIER, TAKE_PROFIT_ATR_MULTIPLIER)) ∧
      (volatility20 klines ≤ 1/50 →
        ((Strategy.calculate_dynamic_levels klines atr).1,
          (Strategy.calculate_dynamic_levels klines atr).2.1) = (6/5, 9/5))) := by
  constructor
  · intro h
    unfold Strategy.calculate_dynamic_levels
    rw [if_pos h]
  · intro hlen
    refine ⟨?_, ?_, ?_⟩
    · intro hhigh
      unfold Strategy.calculate_dynamic_levels
      rw [if_neg (by omega), if_pos hhigh]
    · intro hmid hmid2
      unfold Strategy.calculate_dynamic_levels
      rw [if_neg (by omega), if_neg (by linarith), if_pos hmid]
    · intro hlow
      unfold Strategy.calculate_dynamic_levels
      rw [if_neg (by omega), if_neg (by linarith), if_neg (by linarith)]

set_option maxRecDepth 10000 in
/-- Counterexample for C7 as stated: 20 identical candles with high 101, low
99, close 100 give volatility exactly 2%, which the claim places in the
"2-5%" default tier `(1.5, 2.0)`, but the code's strict `> 0.02` comparison
selects the low-volatility tier `(1.2, 1.8)`. -/
theorem dynamic_levels_boundary_cex :
    volatility20 (List.replicate 20 flatCandle) = 1/50 ∧
      ((Strategy.calculate_dynamic_levels (List.replicate 20 flatCandle) 1).1,
        (Strategy.calculate_dynamic_levels (List.replicate 20 flatCandle) 1).2.1)
        = (6/5, 9/5) ∧
      ¬ ((Strategy.calculate_dynamic_levels (List.replicate 20 flatCandle) 1).1
            = STOP_LOSS_ATR_MULTIPLIER ∧
          (Strategy.calculate_dynamic_levels (List.replicate 20 flatCandle) 1).2.1
            = TAKE_PROFIT_ATR_MULTIPLIER) := by
  refine ⟨by decide, by decide, ?_⟩
  intro h
  exact absurd h.1 (by decide)

set_option maxRecDepth 10000 in
/-- Witness for C7: all four tiers exercised at concrete 20-candle windows
(20%, 3% and 2% volatility) and at a short 5-candle window. -/
theorem dynamic_levels_tiers_witness :
    Strategy.calculate_dynamic_levels (exHist 5) 1
        = (STOP_LOSS_ATR_MULTIPLIER, TAKE_PROFIT_ATR_MULTIPLIER, "insufficient data") ∧
      ((Strategy.calculate_dynamic_levels (List.replicate 20 highVolCandle) 1).1,
        (Strategy.calculate_dynamic_levels (List.replicate 20 highVolCandle) 1).2.1)
        = (2, 5/2) ∧
      ((Strategy.calculate_dynamic_levels (List.replicate 20 medVolCandle) 1).1,
        (Strategy.calculate_dynamic_levels (List.replicate 20 medVolCandle) 1).2.1)
        = (STOP_LOSS_ATR_MULTIPLIER, TAKE_PROFIT_ATR_MULTIPLIER) ∧
      ((Strategy.calculate_dynamic_levels (List.replicate 20 flatCandle) 1).1,
        (Strategy.calculate_dynamic_levels (List.replicate 20 flatCandle) 1).2.1)
        = (6/5, 9/5) := by
  refine ⟨(dynamic_levels_tiers (exHist 5) 1).1 (by decide),
    ((dynamic_levels_tiers (List.replicate 20 highVolCandle) 1).2 (by decide)).1
      (by decide),
    (((dynamic_levels_tiers (List.replicate 20 medVolCandle) 1).2 (by decide)).2.1
      (by decide) (by decide)),
    (((dynamic_levels_tiers (List.replicate 20 flatCandle) 1).2 (by decide)).2.2
      (by decide))⟩

/-- C6: the signal engine returns no signal (and, being a total function,
raises nothing) whenever the candle history is shorter than
`max(RSI period, ATR period) + 1` (in particular when empty), whenever
either indicator is the NaN sentinel, and whenever the ATR is exactly
zero. -/
theorem engine_no_signal_guards (symbol : String) (klines : List Candle)
    (current_oi prev_oi : Option ℚ) (now : ℕ) :
    (klines.length < max (RSI_PERIOD + 1) (ATR_PERIOD + 1) →
      Strategy.process_kline_data symbol klines current_oi prev_oi now = none) ∧
    (calculate_rsi (klines.map Candle.close) RSI_PERIOD = none →
      Strategy.process_kline_data symbol klines current_oi prev_oi now = none) ∧
    (calculate_atr (klines.map Candle.high) (klines.map Candle.low)
        (klines.map Candle.close) ATR_PERIOD = none →
      Strategy.process_kline_data symbol klines current_oi prev_oi now = none) ∧
    (calculate_atr (klines.map Candle.high) (klines.map Candle.low)
        (klines.map Candle.close) ATR_PERIOD = some 0 →
      Strategy.process_kline_data symbol klines current_oi prev_oi now = none) := by
  unfold Strategy.process_kline_data Strategy.process_kline_core
  by_cases hlen : klines.length < max (RSI_PERIOD + 1) (ATR_PERIOD + 1)
  · rw [if_pos hlen]
    exact ⟨fun _ => rfl, fun _ => rfl, fun _ => rfl, fun _ => rfl⟩
  rw [if_neg hlen]
  refine ⟨fun h => absurd h hlen, ?_, ?_, ?_⟩
  · intro hrsi
    rw [hrsi]
  · intro hatr
    rw [hatr]
    rcases calculate_rsi (klines.map Candle.close) RSI_PERIOD with _ | r <;> rfl
  · intro hatr
    rw [hatr]
    rcases calculate_rsi (klines.map Candle.close) RSI_PERIOD with _ | r
    · rfl
    · simp

set_option maxRecDepth 10000 in
/-- Witness for C6: the engine returns `none` on an empty history and on a
15-candle constant history whose ATR is exactly zero. -/
theorem engine_no_signal_guards_witness :
    Strategy.process_kline_data "BTCUSDT" [] (some 103) (some 100) 0 = none ∧
      Strategy.process_kline_data "BTCUSDT" (List.replicate 15 constCandle)
        (some 103) (some 100) 0 = none := by
  constructor
  · exact (engine_no_signal_guards "BTCUSDT" [] (some 103) (some 100) 0).1 (by decide)
  · exact (engine_no_signal_guards "BTCUSDT" (List.replicate 15 constCandle)
      (some 103) (some 100) 0).2.2.2 (by decide)

/-- C8 (amended): the signal engine mutates no state (it is a plain function
in this embedding) and is a deterministic function of (symbol, snapshot,
currentOI, previousOI) *and the wall-clock reading*: two invocations whose
clocks format to the same `%H:%M:%S` string return identical results,
including the formatted alert text.  It is not deterministic in the first
four arguments alone, because the alert text embeds the current time (see
the counterexample). -/
theorem engine_deterministic_given_clock (symbol : String) (klines : List Candle)
    (current_oi prev_oi : Option ℚ) (now now' : ℕ)
    (h : formatTimeHMS now = formatTimeHMS now') :
    Strategy.process_kline_data symbol klines current_oi prev_oi now
      = Strategy.process_kline_data symbol klines current_oi prev_oi now' := by
  unfold Strategy.process_kline_data
  rw [h]

set_option maxRecDepth 10000 in
/-- Counterexample for C8 as stated: identical (symbol, snapshot, currentOI,
previousOI) at clock readings 0 and 1 yield different alert texts (the
trailing timestamp line differs), so the engine is not a function of those
four arguments alone. -/
theorem engine_time_dependence_cex :
    Strategy.process_kline_data "BTCUSDT" (exHist 15) (some 103) (some 100) 0
      ≠ Strategy.process_kline_data "BTCUSDT" (exHist 15) (some 103) (some 100) 1 := by
  decide

set_option maxRecDepth 10000 in
/-- Witness for C8: clock readings 0 and 86400 seconds format to the same
time of day, so the two engine invocations agree exactly. -/
theorem engine_deterministic_given_clock_witness :
    Strategy.process_kline_data "BTCUSDT" (exHist 15) (some 103) (some 100) 0
      = Strategy.process_kline_data "BTCUSDT" (exHist 15) (some 103) (some 100) 86400 :=
  engine_deterministic_given_clock "BTCUSDT" (exHist 15) (some 103) (some 100) 0 86400
    (by decide)

/-- C10: when a closed-candle event arrives for a tracked symbol whose
cooldown window has not yet elapsed, the dispatcher still appends the candle
to that symbol's history but returns before any open-interest fetch, before
the signal engine and before any notification, leaving the open-interest
map and the last-signal map entirely unchanged. -/
theorem kline_cooldown_frame (st : BotState) (sym : String) (k : Kline)
    (now : ℕ) (f : Option ℚ) (hist : List Candle) (t : ℕ)
    (hx : k.x = true) (hh : st.symbol_kline_data sym = some hist)
    (hl : st.last_signal_time sym = some t)
    (hc : now - t < COOLDOWN_BETWEEN_SIGNALS) :
    (CryptoScalpingBot.process_kline_data st sym (some k) now f).state.symbol_kline_data
        sym = some (dequeAppend (KLINE_LIMIT + 20) hist k.candle) ∧
    (CryptoScalpingBot.process_kline_data st sym (some k) now f).state.symbol_open_interest_data
        = st.symbol_open_interest_data ∧
    (CryptoScalpingBot.process_kline_data st sym (some k) now f).state.last_signal_time
        = st.last_signal_time ∧
    (CryptoScalpingBot.process_kline_data st sym (some k) now f).fetched = false ∧
    (CryptoScalpingBot.process_kline_data st sym (some k) now f).signal = none ∧
    (CryptoScalpingBot.process_kline_data st sym (some k) now f).notified = false := by
  unfold CryptoScalpingBot.process_kline_data cooldownActive
  simp [hx, hh, hl, hc, updateMap]

set_option maxRecDepth 10000 in
/-- Witness for C10: a candle-close 100 s after a recorded alert (window
300 s) appends the candle but leaves the open-interest and last-signal maps
unchanged, fetches nothing, and produces no signal. -/
theorem kline_cooldown_frame_witness :
    (CryptoScalpingBot.process_kline_data exStateCooldown "BTCUSDT"
        (some ⟨true, exCandle 15⟩) 1100 none).state.symbol_kline_data "BTCUSDT"
      = some (dequeAppend (KLINE_LIMIT + 20) (exHist 15) (exCandle 15)) ∧
    (CryptoScalpingBot.process_kline_data exStateCooldown "BTCUSDT"
        (some ⟨true, exCandle 15⟩) 1100 none).state.symbol_open_interest_data
      = exStateCooldown.symbol_open_interest_data ∧
    (CryptoScalpingBot.process_kline_data exStateCooldown "BTCUSDT"
        (some ⟨true, exCandle 15⟩) 1100 none).state.last_signal_time
      = exStateCooldown.last_signal_time ∧
    (CryptoScalpingBot.process_kline_data exStateCooldown "BTCUSDT"
        (some ⟨true, exCandle 15⟩) 1100 none).fetched = false ∧
    (CryptoScalpingBot.process_kline_data exStateCooldown "BTCUSDT"
        (some ⟨true, exCandle 15⟩) 1100 none).signal = none ∧
    (CryptoScalpingBot.process_kline_data exStateCooldown "BTCUSDT"
        (some ⟨true, exCandle 15⟩) 1100 none).notified = false :=
  kline_cooldown_frame exStateCooldown "BTCUSDT" ⟨true, exCandle 15⟩ 1100 none
    (exHist 15) 1000 rfl (by decide) (by decide) (by decide)

/-- C1 (amended): the previous/current open-interest shift — `prev_oi`
receives the old `current_oi` and `current_oi` the fresh observation —
happens exactly once per open-interest observation event (with the entry
created `prev = None` on the first observation).  A candle-close event for a
tracked symbol that passes the cooldown gate and already has a current value
does, however, also overwrite `previousOI`: the dispatcher ends by setting
`prev_oi := current_oi`, collapsing the pair (`currentOI` itself is
unchanged there).  The claim's "previousOI is unchanged after every
candle-close" is therefore false on the code (see the counterexample). -/
theorem oi_shift_semantics (st : BotState) (sym : String) (now now' : ℕ)
    (v w : ℚ) (e : OpenInterestEntry) (k : Kline) (f : Option ℚ) :
    (st.symbol_open_interest_data sym = some e →
      (CryptoScalpingBot.process_open_interest_data st sym now
          (some v)).symbol_open_interest_data sym
        = some ⟨some v, e.current_oi, now⟩) ∧
    (st.symbol_open_interest_data sym = none →
      (CryptoScalpingBot.process_open_interest_data st sym now
          (some v)).symbol_open_interest_data sym
        = some ⟨some v, none, now⟩) ∧
    (∀ hist, k.x = true → st.symbol_kline_data sym = some hist →
      cooldownActive (st.last_signal_time sym) now' = false →
      st.symbol_open_interest_data sym = some e → e.current_oi = some w →
      (CryptoScalpingBot.process_kline_data st sym (some k) now'
          f).state.symbol_open_interest_data sym
        = some ⟨some w, some w, e.timestamp⟩) := by
  refine ⟨?_, ?_, ?_⟩
  · intro h
    unfold CryptoScalpingBot.process_open_interest_data
    rw [h]
    simp [updateMap]
  · intro h
    unfold CryptoScalpingBot.process_open_interest_data
    rw [h]
    simp [updateMap]
  · intro hist hx hh hc hoi hw
    unfold CryptoScalpingBot.process_kline_data
    simp only [hx, if_true, hh, hoi, hw, Option.some_bind, Option.isNone_some,
      Bool.false_eq_true, if_false, hc]
    rcases Strategy.process_kline_data sym (dequeAppend (KLINE_LIMIT + 20) hist
        k.candle) (some w) e.prev_oi now' with _ | msg <;>
      simp [updateMap, hoi, hw]

set_option maxRecDepth 10000 in
/-- Counterexample for C1 as stated: in `exState` the `BTCUSDT` entry holds
current 103, previous 100; processing a single closed candle (no cooldown
active, current value present) changes `prev_oi` from 100 to 103, so a
candle-close event alone does change `previousOI`. -/
theorem oi_shift_kline_cex :
    ((CryptoScalpingBot.process_kline_data exState "BTCUSDT"
        (some ⟨true, exCandle 14⟩) 1000 none).state.symbol_open_interest_data
          "BTCUSDT" ≠ exState.symbol_open_interest_data "BTCUSDT") ∧
    ((CryptoScalpingBot.process_kline_data exState "BTCUSDT"
        (some ⟨true, exCandle 14⟩) 1000 none).state.symbol_open_interest_data
          "BTCUSDT").bind OpenInterestEntry.prev_oi = some 103 ∧
    (exState.symbol_open_interest_data "BTCUSDT").bind OpenInterestEntry.prev_oi
      = some 100 := by
  refine ⟨by decide, by decide, by decide⟩

set_option maxRecDepth 10000 in
/-- Witness for C1: the three amended cases at concrete states — an OI
observation on an existing entry shifts current into previous exactly once,
a first observation creates the entry with `prev = None`, and a cooldown-free
candle-close collapses `prev_oi` to the unchanged `current_oi`. -/
theorem oi_shift_semantics_witness :
    (CryptoScalpingBot.process_open_interest_data exStateCooldown "BTCUSDT" 1200
        (some 106)).symbol_open_interest_data "BTCUSDT"
      = some ⟨some 106, some 103, 1200⟩ ∧
    (CryptoScalpingBot.process_open_interest_data exState "ETHUSDT" 1200
        (some 55)).symbol_open_interest_data "ETHUSDT"
      = some ⟨some 55, none, 1200⟩ ∧
    (CryptoScalpingBot.process_kline_data exState "BTCUSDT"
        (some ⟨true, exCandle 14⟩) 1000 none).state.symbol_open_interest_data
          "BTCUSDT" = some ⟨some 103, some 103, 0⟩ := by
  refine ⟨(oi_shift_semantics exStateCooldown "BTCUSDT" 1200 0 106 0
      ⟨some 103, some 103, 0⟩ ⟨true, exCandle 0⟩ none).1 (by decide),
    (oi_shift_semantics exState "ETHUSDT" 1200 0 55 0 ⟨none, none, 0⟩
      ⟨true, exCandle 0⟩ none).2.1 (by decide),
    (oi_shift_semantics exState "BTCUSDT" 0 1000 0 103 ⟨some 103, some 100, 0⟩
      ⟨true, exCandle 14⟩ none).2.2 (exHist 14) rfl (by decide) (by decide)
      (by decide) (by decide)⟩

/-- C2: the cooldown gate.  (1) A notification records the alert time for
the symbol.  (2) With an alert recorded at `now₁`, any closed-candle event
strictly inside the window (`now₂ - now₁ < 300`) produces no notification
and leaves the last-signal map unchanged.  (3) Once the window has elapsed
(`now₂ - now₁ ≥ 300`) the event is notified exactly when the engine produces
a signal on the appended history with the stored open-interest pair.
(4) The gate allows a symbol iff no alert was recorded or
`now - lastAlertTime ≥ cooldownWindow`. -/
theorem cooldown_gate_dedup (st : BotState) (sym : String) (k k' : Kline)
    (now₁ now₂ : ℕ) (f f' : Option ℚ) :
    ((CryptoScalpingBot.process_kline_data st sym (some k) now₁ f).notified = true →
      (CryptoScalpingBot.process_kline_data st sym (some k) now₁
          f).state.last_signal_time sym = some now₁) ∧
    (st.last_signal_time sym = some now₁ → now₂ - now₁ < COOLDOWN_BETWEEN_SIGNALS →
      (CryptoScalpingBot.process_kline_data st sym (some k') now₂ f').notified = false ∧
      (CryptoScalpingBot.process_kline_data st sym (some k') now₂
          f').state.last_signal_time = st.last_signal_time) ∧
    (∀ hist e v, st.last_signal_time sym = some now₁ →
      COOLDOWN_BETWEEN_SIGNALS ≤ now₂ - now₁ → k'.x = true →
      st.symbol_kline_data sym = some hist →
      st.symbol_open_interest_data sym = some e → e.current_oi = some v →
      ((CryptoScalpingBot.process_kline_data st sym (some k') now₂ f').notified = true ↔
        (Strategy.process_kline_data sym (dequeAppend (KLINE_LIMIT + 20) hist
          k'.candle) (some v) e.prev_oi now₂).isSome = true)) ∧
    (cooldownActive (st.last_signal_time sym) now₂ = false ↔
      (st.last_signal_time sym = none ∨
        ∃ t, st.last_signal_time sym = some t ∧
          COOLDOWN_BETWEEN_SIGNALS ≤ now₂ - t)) := by
  refine ⟨?_, ?_, ?_, ?_⟩
  · unfold CryptoScalpingBot.process_kline_data
    rcases k with ⟨x, c⟩
    rcases x with _ | _
    · simp
    simp only [if_true]
    rcases st.symbol_kline_data sym with _ | hist
    · simp
    simp only []
    by_cases hcool : cooldownActive (st.last_signal_time sym) now₁ = true
    · rw [if_pos hcool]
      simp
    rw [if_neg hcool]
    rcases Strategy.process_kline_data sym (dequeAppend (KLINE_LIMIT + 20) hist c)
        (if ((st.symbol_open_interest_data sym).bind OpenInterestEntry.current_oi).isNone
            = true then f
          else (st.symbol_open_interest_data sym).bind OpenInterestEntry.current_oi)
        ((st.symbol_open_interest_data sym).bind OpenInterestEntry.prev_oi) now₁
        with _ | msg
    · simp
    · split <;> simp [updateMap]
  · intro hlast hwin
    unfold CryptoScalpingBot.process_kline_data
    rcases k' with ⟨x, c⟩
    rcases x with _ | _
    · simp
    simp only [if_true]
    rcases hh : st.symbol_kline_data sym with _ | hist
    · simp
    simp only []
    rw [if_pos (by
      simp only [hlast, cooldownActive]
      exact decide_eq_true hwin)]
    simp
  · intro hist e v hlast hwin hx hh hoi hv
    unfold CryptoScalpingBot.process_kline_data
    rcases k' with ⟨x, c⟩
    cases hx
    simp only [if_true, hh]
    simp only [hoi, hv, Option.some_bind, Option.isNone_some, Bool.false_eq_true,
      if_false]
    rw [if_neg (by
      simp only [hlast, cooldownActive]
      simp only [decide_eq_true_eq]
      omega)]
  · unfold cooldownActive
    rcases st.last_signal_time sym with _ | t
    · simp
    · simp only [decide_eq_false_iff_not, not_lt]
      constructor
      · intro h
        exact Or.inr ⟨t, rfl, h⟩
      · rintro (h | ⟨t', ht', h⟩)
        · exact absurd h (by simp)
        · injection ht' with ht'
          subst ht'
          exact h

set_option maxRecDepth 40000 in
/-- Witness for C2 on a concrete run: the first closed candle is notified
and records time 1000; a second candle 100 s later is suppressed; after an
open-interest refresh, a third candle at 1400 s (past the 300 s window) is
notified again. -/
theorem cooldown_gate_dedup_witness :
    exRun1.notified = true ∧
      exRun1.state.last_signal_time "BTCUSDT" = some 1000 ∧
      exRun2.notified = false ∧
      exRun3.notified = true := by
  refine ⟨by decide, ?_, ?_, ?_⟩
  · exact (cooldown_gate_dedup exState "BTCUSDT" ⟨true, exCandle 14⟩
      ⟨true, exCandle 14⟩ 1000 0 none none).1 (by decide)
  · exact ((cooldown_gate_dedup exRun1.state "BTCUSDT" ⟨true, exCandle 14⟩
      ⟨true, exCandle 15⟩ 1000 1100 none none).2.1 (by decide) (by decide)).1
  · exact ((cooldown_gate_dedup exRunOI "BTCUSDT" ⟨true, exCandle 14⟩
      ⟨true, exCandle 16⟩ 1000 1400 none none).2.2.1 (exHist 16)
      ⟨some 106, some 103, 1200⟩ 106 (by decide) (by decide) rfl (by decide)
      (by decide) (by decide)).mpr (by decide)
